import Mathlib

/-!
Verification development for the trading-journal backend core: the trade
lifecycle state machine (create / edit / close), the P&L calculator, the
portfolio cascade delete, and the analytics engine.

Shallow embedding conventions:
* Python `float` prices and quantities are modelled as exact rationals `ℚ`;
  `datetime` values as integers `ℤ` (a timestamp); primary keys as `ℕ`.
* The persistent store (SQLite via SQLAlchemy) is modelled as a `DB` record
  holding the portfolio and trade tables as lists in row-insertion order.
  Rows are appended on insert and updated in place, so list order models the
  engine's row order.
* Fallible request handlers return `Except Err ...`; a raised Python
  exception (`HTTPException`, `ZeroDivisionError`, a NOT NULL violation at
  commit time) is an `Err` value, and the handler's returned state is the
  unchanged input state, because the session is never committed on those
  paths.
* The `verify_portfolio_ownership` dependency does two things in the source:
  a 404 when the portfolio id does not exist, and a 403 ownership check
  against the authenticated user.  Authentication/authorization is an
  external collaborator outside the core, so the embedding keeps the
  existence check (404) and drops the per-user 403 check.
* Audit timestamps (`created_at` / `updated_at`) are server-side defaults
  never read by the core logic and are omitted from the embedding.
-/

namespace TradingJournal

/-- `TradeType` enum from `app/models/trade.py`: LONG = "long", SHORT = "short". -/
inductive TradeType where
  | long
  | short
deriving DecidableEq, Repr

/-- `TradeStatus` enum from `app/models/trade.py`: OPEN = "open", CLOSED = "closed". -/
inductive TradeStatus where
  | open
  | closed
deriving DecidableEq, Repr

/-- Errors surfaced by the handlers.  `notFound` is HTTP 404, `invalidState`
is the HTTP 400 "Trade is already closed", `zeroDivision` is Python's
`ZeroDivisionError` raised by `calculate_profit_loss`, and
`notNullViolation` stands for the TypeError / NOT NULL integrity error hit
when a PATCH writes `null` into a non-nullable column (either path aborts
the request before the session commits). -/
inductive Err where
  | notFound
  | invalidState
  | zeroDivision
  | notNullViolation
  | typeError
deriving DecidableEq, Repr

/-- The `trades` table row from `app/models/trade.py`.  Columns that are
`nullable=True` in the model (`exit_price`, `exit_date`, `profit_loss`,
`profit_loss_percentage`, `notes`, `tags`, `screenshot_path`, and `status`,
which has no `nullable=False`) are `Option`s; NOT NULL columns are bare. -/
structure Trade where
  id : ℕ
  portfolio_id : ℕ
  symbol : String
  trade_type : TradeType
  status : Option TradeStatus
  entry_price : ℚ
  entry_date : ℤ
  quantity : ℚ
  exit_price : Option ℚ
  exit_date : Option ℤ
  profit_loss : Option ℚ
  profit_loss_percentage : Option ℚ
  notes : Option String
  tags : Option String
  screenshot_path : Option String
deriving DecidableEq, Repr

/-- The `portfolios` table row from `app/models/portfolio.py`. -/
structure Portfolio where
  id : ℕ
  name : String
  description : Option String
  initial_balance : ℚ
  user_id : ℕ
deriving DecidableEq, Repr

/-- The persistent store: both tables in row order plus the autoincrement
counters. -/
structure DB where
  portfolios : List Portfolio
  trades : List Trade
  next_portfolio_id : ℕ
  next_trade_id : ℕ
deriving DecidableEq, Repr

/-- `calculate_profit_loss` from `app/crud/trade.py` (lines 34-61).
No exit price gives the concrete sentinel `(0, 0)`.  Otherwise the amount is
`(exit - entry) * quantity` on the `"long"` branch and
`(entry - exit) * quantity` on the `else` branch (which is exactly SHORT,
the only other enum value), and the percentage divides by
`entry_price * quantity`: Python raises `ZeroDivisionError` when that
product is zero, modelled by the `.error .zeroDivision` branch. -/
def calculate_profit_loss (trade : Trade) : Except Err (ℚ × ℚ) :=
  match trade.exit_price with
  | none => .ok (0, 0)
  | some ep =>
    let pl : ℚ :=
      if trade.trade_type = TradeType.long then
        (ep - trade.entry_price) * trade.quantity
      else
        (trade.entry_price - ep) * trade.quantity
    if trade.entry_price * trade.quantity = 0 then
      .error .zeroDivision
    else
      .ok (pl, pl / (trade.entry_price * trade.quantity) * 100)

/-- `select(Trade).where(Trade.id == trade_id)` with `scalar_one_or_none`. -/
def findTrade (s : DB) (trade_id : ℕ) : Option Trade :=
  s.trades.find? (fun t => t.id == trade_id)

/-- `select(Portfolio).where(Portfolio.id == portfolio_id)` with
`scalar_one_or_none` (`get_portfolio_by_id` in `app/crud/portfolio.py`). -/
def findPortfolio (s : DB) (portfolio_id : ℕ) : Option Portfolio :=
  s.portfolios.find? (fun p => p.id == portfolio_id)

/-- Committing an UPDATE of one trade row: the row keeps its place in the
table, only its fields change. -/
def replaceTrade (s : DB) (trade_id : ℕ) (t2 : Trade) : DB :=
  { s with trades := s.trades.map (fun x => if x.id = trade_id then t2 else x) }

/-- Request body `TradeCreate` from `app/schemas/trade.py`: no exit, P&L or
status field can be supplied at creation. -/
structure TradeCreate where
  portfolio_id : ℕ
  symbol : String
  trade_type : TradeType
  entry_price : ℚ
  entry_date : ℤ
  quantity : ℚ
  notes : Option String := none
  tags : Option String := none
deriving DecidableEq, Repr

/-- Request body `TradeClose` from `app/schemas/trade.py`: exit price and
exit date are both required. -/
structure TradeClose where
  exit_price : ℚ
  exit_date : ℤ
deriving DecidableEq, Repr

/-- Request body `TradeUpdate` from `app/schemas/trade.py`.  Every field is
`Optional` with default `None` and the CRUD layer applies
`model_dump(exclude_unset=True)`, so each field distinguishes "absent from
the request" (`none`), "explicitly null" (`some none`) and "set to a value"
(`some (some v)`). -/
structure TradeUpdate where
  symbol : Option (Option String) := none
  trade_type : Option (Option TradeType) := none
  entry_price : Option (Option ℚ) := none
  entry_date : Option (Option ℤ) := none
  quantity : Option (Option ℚ) := none
  exit_price : Option (Option ℚ) := none
  exit_date : Option (Option ℤ) := none
  status : Option (Option TradeStatus) := none
  notes : Option (Option String) := none
  tags : Option (Option String) := none
deriving DecidableEq, Repr

/-- The amount branch of the calculator as a standalone function, for
stating what a successful close stores. -/
def closePL (t : Trade) (tc : TradeClose) : ℚ :=
  if t.trade_type = TradeType.long then (tc.exit_price - t.entry_price) * t.quantity
  else (t.entry_price - tc.exit_price) * t.quantity

/-- One `setattr` on a NOT NULL column: an absent field keeps the stored
value, a value replaces it, and an explicit null makes the request fail
before commit (as a TypeError inside `calculate_profit_loss` or a NOT NULL
integrity error at `db.commit()`; either way nothing is persisted). -/
def setRequired {α : Type} (old : α) : Option (Option α) → Except Err α
  | none => .ok old
  | some (some v) => .ok v
  | some none => .error .notNullViolation

/-- One `setattr` on a nullable column: an absent field keeps the stored
value, anything supplied (value or null) replaces it. -/
def setNullable {α : Type} (old : Option α) : Option (Option α) → Option α
  | none => old
  | some v => v

/-- The `for field, value in update_data.items(): setattr(...)` loop of
`update_trade` (`app/crud/trade.py` lines 148-151), folded over the
`TradeUpdate` fields.  `id`, `portfolio_id` and the derived P&L pair are not
in `TradeUpdate`, so they are untouched here. -/
def applyFields (t : Trade) (u : TradeUpdate) : Except Err Trade := do
  let symbol ← setRequired t.symbol u.symbol
  let trade_type ← setRequired t.trade_type u.trade_type
  let entry_price ← setRequired t.entry_price u.entry_price
  let entry_date ← setRequired t.entry_date u.entry_date
  let quantity ← setRequired t.quantity u.quantity
  return { t with
    symbol := symbol
    trade_type := trade_type
    entry_price := entry_price
    entry_date := entry_date
    quantity := quantity
    exit_price := setNullable t.exit_price u.exit_price
    exit_date := setNullable t.exit_date u.exit_date
    status := setNullable t.status u.status
    notes := setNullable t.notes u.notes
    tags := setNullable t.tags u.tags }

/-- `create_portfolio` from `app/crud/portfolio.py`: insert a new row with
the next id. -/
def create_portfolio (s : DB) (name : String) (description : Option String)
    (initial_balance : ℚ) (user_id : ℕ) : DB × Portfolio :=
  let p : Portfolio :=
    { id := s.next_portfolio_id, name := name, description := description,
      initial_balance := initial_balance, user_id := user_id }
  ({ s with portfolios := s.portfolios ++ [p],
            next_portfolio_id := s.next_portfolio_id + 1 }, p)

/-- POST `/trades/` (`app/routers/trades.py` lines 105-125 plus
`create_trade` in `app/crud/trade.py`): 404 when the portfolio id does not
exist, otherwise insert a Trade in OPEN state with no exit data and no
derived P&L. -/
def create_trade_api (s : DB) (tc : TradeCreate) : DB × Except Err Trade :=
  match findPortfolio s tc.portfolio_id with
  | none => (s, .error .notFound)
  | some _ =>
    let t : Trade :=
      { id := s.next_trade_id, portfolio_id := tc.portfolio_id,
        symbol := tc.symbol, trade_type := tc.trade_type,
        status := some TradeStatus.open,
        entry_price := tc.entry_price, entry_date := tc.entry_date,
        quantity := tc.quantity,
        exit_price := none, exit_date := none,
        profit_loss := none, profit_loss_percentage := none,
        notes := tc.notes, tags := tc.tags, screenshot_path := none }
    ({ s with trades := s.trades ++ [t], next_trade_id := s.next_trade_id + 1 },
     .ok t)

/-- PATCH `/trades/{trade_id}` (`app/routers/trades.py` lines 161-195 plus
`update_trade` in `app/crud/trade.py` lines 125-161): 404 when the trade or
its portfolio does not exist; otherwise apply the supplied fields, and
recompute the derived P&L pair exactly when the trade's `exit_price` is
non-null after the fields are applied. -/
def update_trade_api (s : DB) (trade_id : ℕ) (u : TradeUpdate) :
    DB × Except Err Trade :=
  match findTrade s trade_id with
  | none => (s, .error .notFound)
  | some t =>
    match findPortfolio s t.portfolio_id with
    | none => (s, .error .notFound)
    | some _ =>
      match applyFields t u with
      | .error e => (s, .error e)
      | .ok t1 =>
        match t1.exit_price with
        | none => (replaceTrade s trade_id t1, .ok t1)
        | some _ =>
          match calculate_profit_loss t1 with
          | .error e => (s, .error e)
          | .ok (pl, pl_pct) =>
            let t2 := { t1 with profit_loss := some pl,
                                profit_loss_percentage := some pl_pct }
            (replaceTrade s trade_id t2, .ok t2)

/-- POST `/trades/{trade_id}/close` (`app/routers/trades.py` lines 198-246
plus `close_trade` in `app/crud/trade.py` lines 164-195): 404 when the trade
or its portfolio does not exist; 400 when the trade is already CLOSED
(checked before any write); otherwise set the exit price and date, force
`status = CLOSED` and compute the P&L pair with the calculator.  A
`ZeroDivisionError` inside the calculator aborts before `db.commit()`, so
the store is unchanged on that path. -/
def close_trade_api (s : DB) (trade_id : ℕ) (tc : TradeClose) :
    DB × Except Err Trade :=
  match findTrade s trade_id with
  | none => (s, .error .notFound)
  | some t =>
    match findPortfolio s t.portfolio_id with
    | none => (s, .error .notFound)
    | some _ =>
      if t.status = some TradeStatus.closed then
        (s, .error .invalidState)
      else
        let t1 := { t with exit_price := some tc.exit_price,
                           exit_date := some tc.exit_date,
                           status := some TradeStatus.closed }
        match calculate_profit_loss t1 with
        | .error e => (s, .error e)
        | .ok (pl, pl_pct) =>
          let t2 := { t1 with profit_loss := some pl,
                              profit_loss_percentage := some pl_pct }
          (replaceTrade s trade_id t2, .ok t2)

/-- `trade.profit_loss or 0`: the null-as-zero coercion the analytics use
when classifying and summing trades. -/
def plOrZero (t : Trade) : ℚ :=
  (t.profit_loss).getD 0

/-- `sum(t.profit_loss for t in ...)` WITHOUT the `or 0` guard, as written
on lines 162-163 and 168-169 of `app/routers/analytics.py`: summing a null
`profit_loss` raises a TypeError in Python, modelled by the error branch. -/
def sumPL : List Trade → Except Err ℚ
  | [] => .ok 0
  | t :: ts =>
    match t.profit_loss with
    | none => .error .typeError
    | some v => (sumPL ts).map (fun acc => v + acc)

/-- `winning_trades = [t for t in closed_trades if (t.profit_loss or 0) > 0]`
(`app/routers/analytics.py` line 151). -/
def winning_trades (ts : List Trade) : List Trade :=
  ts.filter (fun t => decide (0 < plOrZero t))

/-- `losing_trades = [t for t in closed_trades if (t.profit_loss or 0) <= 0]`
(`app/routers/analytics.py` line 152). -/
def losing_trades (ts : List Trade) : List Trade :=
  ts.filter (fun t => decide (plOrZero t ≤ 0))

/-- `win_rate = (total_wins / total_trades) * 100 if total_trades > 0 else 0`
(`app/routers/analytics.py` line 158). -/
def win_rate (ts : List Trade) : ℚ :=
  if 0 < ts.length then
    ((winning_trades ts).length : ℚ) / (ts.length : ℚ) * 100
  else 0

/-- Python's `round(x, 2)` idealised over exact rationals: round
`x * 100` to the nearest integer, ties to the even neighbour, divide back. -/
def roundHalfEven (x : ℚ) : ℤ :=
  if x - (⌊x⌋ : ℚ) = 1 / 2 then
    (if 2 ∣ ⌊x⌋ then ⌊x⌋ else ⌊x⌋ + 1)
  else round x

/-- Two-decimal presentation rounding applied when the handlers build their
response dictionaries. -/
def roundTo2 (x : ℚ) : ℚ :=
  (roundHalfEven (x * 100) : ℚ) / 100

/-- Python's `max(trades, key=lambda t: t.profit_loss or 0)`: scan left to
right, replace the current best only on a strictly larger key, so ties keep
the first-encountered trade. -/
def firstMaxByPL : Trade → List Trade → Trade
  | best, [] => best
  | best, t :: ts =>
    if plOrZero best < plOrZero t then firstMaxByPL t ts
    else firstMaxByPL best ts

/-- Python's `min(trades, key=lambda t: t.profit_loss or 0)`: ties keep the
first-encountered trade. -/
def firstMinByPL : Trade → List Trade → Trade
  | worst, [] => worst
  | worst, t :: ts =>
    if plOrZero t < plOrZero worst then firstMinByPL t ts
    else firstMinByPL worst ts

/-- The `best_trade` / `worst_trade` compact summary (id, symbol, rounded
P&L) of the aggregate response. -/
structure TradeSummary where
  id : ℕ
  symbol : String
  profit_loss : ℚ
deriving DecidableEq, Repr

/-- The response dictionary of GET `/analytics/portfolio/{portfolio_id}`. -/
structure AnalyticsOut where
  portfolio_id : ℕ
  portfolio_name : String
  total_trades : ℕ
  total_profit_loss : ℚ
  win_rate : ℚ
  average_profit_loss : ℚ
  best_trade : Option TradeSummary
  worst_trade : Option TradeSummary
  total_wins : ℕ
  total_losses : ℕ
  average_win : ℚ
  average_loss : ℚ
  profit_factor : ℚ
deriving DecidableEq, Repr

/-- The `select(Trade).where(and_(Trade.portfolio_id == portfolio_id,
Trade.status == TradeStatus.CLOSED))` query both analytics handlers run. -/
def closedTrades (s : DB) (portfolio_id : ℕ) : List Trade :=
  s.trades.filter
    (fun t => decide (t.portfolio_id = portfolio_id ∧ t.status = some TradeStatus.closed))

/-- The zero-state response returned when the portfolio has no closed trade
(`app/routers/analytics.py` lines 130-145). -/
def zeroAnalytics (portfolio_id : ℕ) (portfolio_name : String) : AnalyticsOut :=
  { portfolio_id := portfolio_id, portfolio_name := portfolio_name,
    total_trades := 0, total_profit_loss := 0, win_rate := 0,
    average_profit_loss := 0, best_trade := none, worst_trade := none,
    total_wins := 0, total_losses := 0, average_win := 0, average_loss := 0,
    profit_factor := 0 }

/-- GET `/analytics/portfolio/{portfolio_id}` (`app/routers/analytics.py`
lines 78-198).  404 when the portfolio id does not exist; the zero-state
when there is no closed trade; otherwise the statistics of the closed
trades.  `average_win`, `average_loss` and the profit-factor sums use
`t.profit_loss` without the `or 0` guard, so a closed trade with a null
`profit_loss` (it is then classified losing) raises a TypeError, modelled by
the error branch; every winning trade provably has a non-null
`profit_loss`, so only the losing sums can fail.  Monetary outputs are
rounded to two decimals when the response is built. -/
def get_portfolio_analytics (s : DB) (portfolio_id : ℕ) :
    Except Err AnalyticsOut :=
  match findPortfolio s portfolio_id with
  | none => .error .notFound
  | some p =>
    match closedTrades s portfolio_id with
    | [] => .ok (zeroAnalytics portfolio_id p.name)
    | t0 :: rest =>
      let ts := t0 :: rest
      let total_pl : ℚ := (ts.map plOrZero).sum
      let winning := winning_trades ts
      let losing := losing_trades ts
      let avg_pl : ℚ := total_pl / (ts.length : ℚ)
      let avgWinE : Except Err ℚ :=
        if 0 < winning.length then
          (sumPL winning).map (fun x => x / (winning.length : ℚ))
        else .ok 0
      let avgLossE : Except Err ℚ :=
        if 0 < losing.length then
          (sumPL losing).map (fun x => x / (losing.length : ℚ))
        else .ok 0
      match avgWinE, avgLossE, sumPL winning, (sumPL losing).map abs with
      | .ok avg_win, .ok avg_loss, .ok total_win_amount, .ok total_loss_amount =>
        let profit_factor : ℚ :=
          if 0 < total_loss_amount then total_win_amount / total_loss_amount
          else 0
        let best := firstMaxByPL t0 rest
        let worst := firstMinByPL t0 rest
        .ok { portfolio_id := portfolio_id, portfolio_name := p.name,
              total_trades := ts.length,
              total_profit_loss := roundTo2 total_pl,
              win_rate := roundTo2 (win_rate ts),
              average_profit_loss := roundTo2 avg_pl,
              best_trade := some ⟨best.id, best.symbol, roundTo2 (plOrZero best)⟩,
              worst_trade := some ⟨worst.id, worst.symbol, roundTo2 (plOrZero worst)⟩,
              total_wins := winning.length,
              total_losses := losing.length,
              average_win := roundTo2 avg_win,
              average_loss := roundTo2 avg_loss,
              profit_factor := roundTo2 profit_factor }
      | _, _, _, _ => .error .typeError

/-- One per-symbol group of GET
`/analytics/portfolio/{portfolio_id}/by-symbol`. -/
structure SymbolStats where
  symbol : String
  total_trades : ℕ
  total_profit_loss : ℚ
  wins : ℕ
  losses : ℕ
  win_rate : ℚ
deriving DecidableEq, Repr

/-- The per-trade accumulation of `get_analytics_by_symbol`
(`app/routers/analytics.py` lines 267-275): bump the count, add
`profit_loss or 0`, and count a win on `> 0` else a loss. -/
def bumpStats (g : SymbolStats) (t : Trade) : SymbolStats :=
  { g with
    total_trades := g.total_trades + 1,
    total_profit_loss := g.total_profit_loss + plOrZero t,
    wins := if 0 < plOrZero t then g.wins + 1 else g.wins,
    losses := if 0 < plOrZero t then g.losses else g.losses + 1 }

/-- One iteration of the grouping loop: create the zero-initialised group
the first time a symbol appears (Python dict insertion order is the list
order), then bump the group of the trade's symbol. -/
def stepSymbol (gs : List SymbolStats) (t : Trade) : List SymbolStats :=
  let gs1 :=
    if gs.any (fun g => g.symbol == t.symbol) then gs
    else gs ++ [{ symbol := t.symbol, total_trades := 0, total_profit_loss := 0,
                  wins := 0, losses := 0, win_rate := 0 }]
  gs1.map (fun g => if g.symbol = t.symbol then bumpStats g t else g)

/-- The grouping loop over the closed trades. -/
def symbolGroups (ts : List Trade) : List SymbolStats :=
  ts.foldl stepSymbol []

/-- The finishing pass (`app/routers/analytics.py` lines 277-282): per-group
win rate and two-decimal rounding. -/
def finalizeGroup (g : SymbolStats) : SymbolStats :=
  { g with
    win_rate :=
      if 0 < g.total_trades then
        roundTo2 ((g.wins : ℚ) / (g.total_trades : ℚ) * 100)
      else 0,
    total_profit_loss := roundTo2 g.total_profit_loss }

/-- GET `/analytics/portfolio/{portfolio_id}/by-symbol`
(`app/routers/analytics.py` lines 201-284): 404 when the portfolio id does
not exist, otherwise the finalized symbol groups of the closed trades.
This handler uses `profit_loss or 0` everywhere, so it never raises. -/
def get_analytics_by_symbol (s : DB) (portfolio_id : ℕ) :
    Except Err (List SymbolStats) :=
  match findPortfolio s portfolio_id with
  | none => .error .notFound
  | some _ => .ok ((symbolGroups (closedTrades s portfolio_id)).map finalizeGroup)

/-- DELETE `/trades/{trade_id}` / `delete_trade` in `app/crud/trade.py`. -/
def delete_trade (s : DB) (trade_id : ℕ) : DB × Bool :=
  match findTrade s trade_id with
  | none => (s, false)
  | some _ =>
    ({ s with trades := s.trades.filter (fun t => ¬ t.id = trade_id) }, true)

/-- `delete_portfolio` from `app/crud/portfolio.py` (lines 112-132).  The
relationship `trades = relationship(..., cascade="all, delete-orphan")` in
`app/models/portfolio.py` (line 71) deletes every trade whose
`portfolio_id` matches inside the same transaction as the portfolio row, so
the cascade is one atomic commit. -/
def delete_portfolio (s : DB) (portfolio_id : ℕ) : DB × Bool :=
  match findPortfolio s portfolio_id with
  | none => (s, false)
  | some _ =>
    ({ s with
        portfolios := s.portfolios.filter (fun p => ¬ p.id = portfolio_id),
        trades := s.trades.filter (fun t => ¬ t.portfolio_id = portfolio_id) },
     true)

/-- Stable insertion into a list already ordered by `entry_date` descending:
skip rows with a strictly later entry date, insert before the first row with
an equal-or-earlier one, so among equal dates an earlier row stays first. -/
def insertByEntryDateDesc (t : Trade) : List Trade → List Trade
  | [] => [t]
  | x :: xs =>
    if x.entry_date ≤ t.entry_date then t :: x :: xs
    else x :: insertByEntryDateDesc t xs

/-- Modelled from the spec: `get_portfolio_trades` orders with
`query.order_by(Trade.entry_date.desc())` and the handling of ties among
equal entry dates is left to the SQL engine; §4.3 of the spec pins it to a
stable, deterministic insertion/identity order, embedded here as a stable
insertion sort over the table's row order. -/
def sortByEntryDateDesc : List Trade → List Trade
  | [] => []
  | t :: ts => insertByEntryDateDesc t (sortByEntryDateDesc ts)

/-- The query `get_portfolio_trades` builds before ordering
(`app/crud/trade.py` lines 95-99): filter by portfolio id, and add the
status filter only when the argument is truthy (`if status:` — both enum
values are truthy, `None` is not). -/
def tradesQuery (s : DB) (portfolio_id : ℕ)
    (status : Option TradeStatus) : List Trade :=
  let base := s.trades.filter (fun t => decide (t.portfolio_id = portfolio_id))
  match status with
  | none => base
  | some st => base.filter (fun t => decide (t.status = some st))

/-- `get_portfolio_trades` from `app/crud/trade.py` (lines 78-103): the
query above, ordered by entry date descending. -/
def get_portfolio_trades (s : DB) (portfolio_id : ℕ)
    (status : Option TradeStatus) : List Trade :=
  sortByEntryDateDesc (tradesQuery s portfolio_id status)

/-- GET `/trades/portfolio/{portfolio_id}` (`app/routers/trades.py` lines
80-102): 404 when the portfolio id does not exist, otherwise the CRUD
listing. -/
def get_portfolio_trades_api (s : DB) (portfolio_id : ℕ)
    (status : Option TradeStatus) : Except Err (List Trade) :=
  match findPortfolio s portfolio_id with
  | none => .error .notFound
  | some _ => .ok (get_portfolio_trades s portfolio_id status)

/-- The store states reachable from an empty database through the core
operations: portfolio creation, trade create / edit / close, and the two
deletes.  Handlers that return an error leave the state component equal to
their input state, so error paths are covered too. -/
inductive Reachable : DB → Prop where
  | empty : Reachable ⟨[], [], 1, 1⟩
  | createPortfolio (s : DB) (name : String) (description : Option String)
      (initial_balance : ℚ) (user_id : ℕ) : Reachable s →
      Reachable (create_portfolio s name description initial_balance user_id).1
  | createTrade (s : DB) (tc : TradeCreate) : Reachable s →
      Reachable (create_trade_api s tc).1
  | updateTrade (s : DB) (trade_id : ℕ) (u : TradeUpdate) : Reachable s →
      Reachable (update_trade_api s trade_id u).1
  | closeTrade (s : DB) (trade_id : ℕ) (tc : TradeClose) : Reachable s →
      Reachable (close_trade_api s trade_id tc).1
  | deleteTrade (s : DB) (trade_id : ℕ) : Reachable s →
      Reachable (delete_trade s trade_id).1
  | deletePortfolio (s : DB) (portfolio_id : ℕ) : Reachable s →
      Reachable (delete_portfolio s portfolio_id).1

/-- Reachability restricted to edits that never write an explicit null into
`exit_price` (they may still omit it or set a value).  This is the fragment
on which the populated-P&L-iff-exit-data invariant survives. -/
inductive ReachableSafe : DB → Prop where
  | empty : ReachableSafe ⟨[], [], 1, 1⟩
  | createPortfolio (s : DB) (name : String) (description : Option String)
      (initial_balance : ℚ) (user_id : ℕ) : ReachableSafe s →
      ReachableSafe (create_portfolio s name description initial_balance user_id).1
  | createTrade (s : DB) (tc : TradeCreate) : ReachableSafe s →
      ReachableSafe (create_trade_api s tc).1
  | updateTrade (s : DB) (trade_id : ℕ) (u : TradeUpdate) :
      u.exit_price ≠ some none → ReachableSafe s →
      ReachableSafe (update_trade_api s trade_id u).1
  | closeTrade (s : DB) (trade_id : ℕ) (tc : TradeClose) : ReachableSafe s →
      ReachableSafe (close_trade_api s trade_id tc).1
  | deleteTrade (s : DB) (trade_id : ℕ) : ReachableSafe s →
      ReachableSafe (delete_trade s trade_id).1
  | deletePortfolio (s : DB) (portfolio_id : ℕ) : ReachableSafe s →
      ReachableSafe (delete_portfolio s portfolio_id).1

/-- The populated-derived-data invariant of §3 of the spec: each derived
field is non-null exactly when the exit price is. -/
def PLInvariant (t : Trade) : Prop :=
  (t.profit_loss ≠ none ↔ t.exit_price ≠ none) ∧
  (t.profit_loss_percentage ≠ none ↔ t.exit_price ≠ none)

/-! Concrete fixture states used by the counterexamples and witnesses. -/

/-- A LONG trade holding an exit price while `entry_price * quantity = 0`
(`quantity = 0` passes validation: `TradeCreate.quantity` is a plain
`float`). -/
def c1ZeroTrade : Trade :=
  ⟨1, 1, "TCS", .long, some .open, 100, 10, 0, some 120, some 20,
    none, none, none, none, none⟩

/-- The LONG worked example of §8 of the spec: entry 100, exit 120,
quantity 10. -/
def c1LongTrade : Trade :=
  ⟨1, 1, "TCS", .long, some .closed, 100, 10, 10, some 120, some 20,
    none, none, none, none, none⟩

/-- The SHORT worked example of §8 of the spec: entry 100, exit 80,
quantity 10. -/
def c1ShortTrade : Trade :=
  ⟨2, 1, "TCS", .short, some .closed, 100, 10, 10, some 80, some 20,
    none, none, none, none, none⟩

def c2Portfolio : Portfolio := ⟨1, "Main", none, 0, 1⟩

/-- An OPEN trade with `quantity = 0`: closing it divides by zero. -/
def c2ZeroQtyTrade : Trade :=
  ⟨1, 1, "TCS", .long, some .open, 100, 10, 0, none, none,
    none, none, none, none, none⟩

def c2DB : DB := ⟨[c2Portfolio], [c2ZeroQtyTrade], 2, 2⟩

def c2Close : TradeClose := ⟨120, 20⟩

def c2wPortfolio : Portfolio := ⟨1, "Main", none, 0, 1⟩

/-- An ordinary OPEN trade (entry 100, quantity 10). -/
def c2wTrade : Trade :=
  ⟨1, 1, "TCS", .long, some .open, 100, 10, 10, none, none,
    none, none, none, none, none⟩

def c2wDB : DB := ⟨[c2wPortfolio], [c2wTrade], 2, 2⟩

/-- Operation chain for the lifecycle claims: create a portfolio, create a
trade in it, close it, then PATCH it with an explicit `exit_price: null`. -/
def c3Create : TradeCreate := ⟨1, "TCS", .long, 100, 10, 10, none, none⟩

def c3Close : TradeClose := ⟨120, 20⟩

/-- The PATCH body `{"exit_price": null}`. -/
def c3NullExit : TradeUpdate := { exit_price := some none }

def c3s1 : DB := (create_portfolio ⟨[], [], 1, 1⟩ "Main" none 0 1).1

def c3s2 : DB := (create_trade_api c3s1 c3Create).1

def c3s3 : DB := (close_trade_api c3s2 1 c3Close).1

def c3s4 : DB := (update_trade_api c3s3 1 c3NullExit).1

/-- The closed trade row of `c3s3`: exit 120 at entry 100 × 10 gives
P&L 200 and 20 percent. -/
def c3wTrade : Trade :=
  ⟨1, 1, "TCS", .long, some .closed, 100, 10, 10, some 120, some 20,
    some 200, some 20, none, none, none⟩

def c4Portfolio : Portfolio := ⟨1, "Main", none, 0, 1⟩

/-- An OPEN trade with `quantity = 0`. -/
def c4ZeroQtyTrade : Trade :=
  ⟨1, 1, "TCS", .long, some .open, 100, 10, 0, none, none,
    none, none, none, none, none⟩

def c4DB : DB := ⟨[c4Portfolio], [c4ZeroQtyTrade], 2, 2⟩

def c4Close : TradeClose := ⟨120, 20⟩

/-- A PATCH that only adds an exit price to the zero-quantity trade. -/
def c4Update : TradeUpdate := { exit_price := some (some 120) }

def c5Portfolio : Portfolio := ⟨1, "Main", none, 0, 1⟩

def c5Win : Trade :=
  ⟨1, 1, "TCS", .long, some .closed, 100, 10, 10, some 105, some 20,
    some 50, some 5, none, none, none⟩

def c5Loss : Trade :=
  ⟨2, 1, "INFY", .long, some .closed, 100, 11, 10, some 97, some 21,
    some (-30), some (-3), none, none, none⟩

def c5DB : DB := ⟨[c5Portfolio], [c5Win, c5Loss], 2, 3⟩

def c6Portfolio : Portfolio := ⟨1, "Main", none, 0, 1⟩

def c6Other : Portfolio := ⟨2, "Side", none, 0, 1⟩

def c6TradeIn : Trade :=
  ⟨1, 1, "TCS", .long, some .open, 100, 10, 10, none, none,
    none, none, none, none, none⟩

def c6TradeOut : Trade :=
  ⟨2, 2, "INFY", .long, some .open, 100, 11, 10, none, none,
    none, none, none, none, none⟩

def c6DB : DB := ⟨[c6Portfolio, c6Other], [c6TradeIn, c6TradeOut], 3, 3⟩

/-- Chain producing a CLOSED trade whose `profit_loss` is null: create the
trade, then PATCH `{"status": "closed"}` without ever supplying exit data
(the status column is nullable-writable and the generic edit never forces
exit data, §9 of the spec). -/
def c7Create : TradeCreate := ⟨1, "TCS", .long, 100, 10, 10, none, none⟩

def c7StatusClosed : TradeUpdate := { status := some (some TradeStatus.closed) }

def c7s1 : DB := (create_portfolio ⟨[], [], 1, 1⟩ "Main" none 0 1).1

def c7s2 : DB := (create_trade_api c7s1 c7Create).1

def c7s3 : DB := (update_trade_api c7s2 1 c7StatusClosed).1

def c7wPortfolio : Portfolio := ⟨1, "Main", none, 0, 1⟩

def c7wWin : Trade :=
  ⟨1, 1, "TCS", .long, some .closed, 100, 10, 10, some 110, some 20,
    some 100, some 10, none, none, none⟩

def c7wLoss : Trade :=
  ⟨2, 1, "INFY", .long, some .closed, 100, 11, 10, some 95, some 21,
    some (-50), some (-5), none, none, none⟩

def c7wDB : DB := ⟨[c7wPortfolio], [c7wWin, c7wLoss], 2, 3⟩

def c8Portfolio : Portfolio := ⟨1, "Main", none, 0, 1⟩

def c8A1 : Trade :=
  ⟨1, 1, "TCS", .long, some .closed, 100, 10, 10, some 110, some 20,
    some 100, some 10, none, none, none⟩

def c8A2 : Trade :=
  ⟨2, 1, "TCS", .long, some .closed, 100, 11, 10, some 95, some 21,
    some (-50), some (-5), none, none, none⟩

def c8B1 : Trade :=
  ⟨3, 1, "INFY", .short, some .closed, 200, 12, 5, some 190, some 22,
    some 50, some 5, none, none, none⟩

def c8DB : DB := ⟨[c8Portfolio], [c8A1, c8A2, c8B1], 2, 4⟩

def c10Portfolio : Portfolio := ⟨1, "Main", none, 0, 1⟩

/-- A consistently closed trade: exit 120 at entry 100 × 10, pair (200, 20). -/
def c10ClosedTrade : Trade :=
  ⟨1, 1, "TCS", .long, some .closed, 100, 10, 10, some 120, some 20,
    some 200, some 20, none, none, none⟩

def c10DB : DB := ⟨[c10Portfolio], [c10ClosedTrade], 2, 2⟩

/-- The PATCH body `{"quantity": 0}`: touches neither exit nor P&L fields. -/
def c10ZeroQty : TradeUpdate := { quantity := some (some 0) }

/-- The PATCH body `{"notes": "x"}`: an edit of a free-form field only. -/
def c10Notes : TradeUpdate := { notes := some (some "reviewed") }

/-- The trade of `c10DB` after the notes-only PATCH is applied in memory. -/
def c10T1 : Trade := { c10ClosedTrade with notes := some "reviewed" }

def c9Portfolio : Portfolio := ⟨1, "Main", none, 0, 1⟩

/-- Rows inserted in order 1, 2, 3; rows 2 and 3 tie on entry date 9. -/
def c9T1 : Trade :=
  ⟨1, 1, "TCS", .long, some .open, 100, 5, 10, none, none,
    none, none, none, none, none⟩

def c9T2 : Trade :=
  ⟨2, 1, "INFY", .long, some .open, 100, 9, 10, none, none,
    none, none, none, none, none⟩

def c9T3 : Trade :=
  ⟨3, 1, "WIPRO", .long, some .closed, 100, 9, 10, none, none,
    none, none, none, none, none⟩

def c9DB : DB := ⟨[c9Portfolio], [c9T1, c9T2, c9T3], 2, 4⟩

/-- Equality of handler results is decidable, so concrete runs of the
embedded operations can be checked by evaluation. -/
instance {e a : Type} [DecidableEq e] [DecidableEq a] : DecidableEq (Except e a) := fun x y =>
  match x, y with
  | .error u, .error v =>
    if h : u = v then .isTrue (by rw [h]) else .isFalse (by intro hh; cases hh; exact h rfl)
  | .error _, .ok _ => .isFalse (by intro hh; cases hh)
  | .ok _, .error _ => .isFalse (by intro hh; cases hh)
  | .ok u, .ok v =>
    if h : u = v then .isTrue (by rw [h]) else .isFalse (by intro hh; cases hh; exact h rfl)

/-! Theorems. -/

/-- Spec §8 LONG example: entry 100, exit 120, quantity 10 gives P&L 200 at
20 percent. -/
example : calculate_profit_loss c1LongTrade = .ok (200, 20) := by
  with_unfolding_all decide

/-- Spec §8 SHORT example: entry 100, exit 80, quantity 10 gives P&L 200 at
20 percent. -/
example : calculate_profit_loss c1ShortTrade = .ok (200, 20) := by
  with_unfolding_all decide

/-- C1.  The claim quantifies over every trade with a non-null exit price,
but at `entry_price * quantity = 0` the calculator raises
`ZeroDivisionError` instead of returning the claimed pair: the concrete
trade below has an exit price and gets no `(amount, percentage)` result. -/
theorem c1_counterexample :
    c1ZeroTrade.exit_price = some 120 ∧
    calculate_profit_loss c1ZeroTrade = .error .zeroDivision ∧
    (calculate_profit_loss c1ZeroTrade).isOk = false := by
  with_unfolding_all decide

/-- C1 (amended): with `exit_price` absent the calculator returns the
concrete sentinel `(0, 0)`; with an exit price present and
`entry_price * quantity ≠ 0` it returns
`amount = (exit - entry) * quantity` for LONG and
`(entry - exit) * quantity` for SHORT, with
`percentage = amount / (entry * quantity) * 100`; with an exit price
present and `entry_price * quantity = 0` it fails with the division error
instead of returning a pair. -/
theorem c1_pnl_calculator (t : Trade) :
    (t.exit_price = none → calculate_profit_loss t = .ok (0, 0)) ∧
    (∀ ep, t.exit_price = some ep → t.entry_price * t.quantity ≠ 0 →
      t.trade_type = TradeType.long →
      calculate_profit_loss t =
        .ok ((ep - t.entry_price) * t.quantity,
          (ep - t.entry_price) * t.quantity / (t.entry_price * t.quantity) * 100)) ∧
    (∀ ep, t.exit_price = some ep → t.entry_price * t.quantity ≠ 0 →
      t.trade_type = TradeType.short →
      calculate_profit_loss t =
        .ok ((t.entry_price - ep) * t.quantity,
          (t.entry_price - ep) * t.quantity / (t.entry_price * t.quantity) * 100)) ∧
    (∀ ep, t.exit_price = some ep → t.entry_price * t.quantity = 0 →
      calculate_profit_loss t = .error .zeroDivision) := by
  refine ⟨?_, ?_, ?_, ?_⟩
  · intro h
    simp [calculate_profit_loss, h]
  · intro ep hep hz hlong
    simp [calculate_profit_loss, hep, hz, hlong]
  · intro ep hep hz hshort
    have : ¬ t.trade_type = TradeType.long := by
      rw [hshort]; intro h; cases h
    simp [calculate_profit_loss, hep, hz, this]
  · intro ep hep hz
    simp [calculate_profit_loss, hep, hz]

/-- C2.  The claim promises that every OPEN trade can be closed with the
stated effects, but closing the OPEN zero-quantity trade of `c2DB` raises
`ZeroDivisionError` out of the P&L calculation and commits nothing: the
trade stays OPEN instead of being forced to CLOSED. -/
theorem c2_counterexample :
    (findTrade c2DB 1).map Trade.status = some (some TradeStatus.open) ∧
    close_trade_api c2DB 1 c2Close = (c2DB, .error .zeroDivision) := by
  with_unfolding_all decide

/-- C2 (amended).  Closing an already-CLOSED trade is rejected with the
invalid-state error and the store is returned untouched; closing an OPEN
trade whose `entry_price * quantity` is non-zero sets the exit price and
timestamp, forces `status = CLOSED` and stores exactly the calculator's
pair.  (An OPEN trade with `entry_price * quantity = 0` instead fails with
the division error and no mutation, as the counterexample shows.) -/
theorem c2_close_lifecycle (s : DB) (trade_id : ℕ) (tc : TradeClose) (t : Trade)
    (ht : findTrade s trade_id = some t)
    (hp : (findPortfolio s t.portfolio_id).isSome = true) :
    (t.status = some TradeStatus.closed →
      close_trade_api s trade_id tc = (s, .error .invalidState)) ∧
    (t.status = some TradeStatus.open → t.entry_price * t.quantity ≠ 0 →
      ∃ t2 pl pct,
        close_trade_api s trade_id tc = (replaceTrade s trade_id t2, .ok t2) ∧
        t2.exit_price = some tc.exit_price ∧
        t2.exit_date = some tc.exit_date ∧
        t2.status = some TradeStatus.closed ∧
        calculate_profit_loss t2 = .ok (pl, pct) ∧
        t2.profit_loss = some pl ∧
        t2.profit_loss_percentage = some pct) := by
  obtain ⟨p, hp⟩ := Option.isSome_iff_exists.mp hp
  constructor
  · intro hclosed
    simp [close_trade_api, ht, hp, hclosed]
  · intro hopen hz
    have hne : ¬ t.status = some TradeStatus.closed := by
      rw [hopen]; intro h; cases h
    refine ⟨{ t with
                exit_price := some tc.exit_price,
                exit_date := some tc.exit_date,
                status := some TradeStatus.closed,
                profit_loss := some (closePL t tc),
                profit_loss_percentage :=
                  some (closePL t tc / (t.entry_price * t.quantity) * 100) },
            closePL t tc, closePL t tc / (t.entry_price * t.quantity) * 100,
            ?_, rfl, rfl, rfl, ?_, rfl, rfl⟩
    · simp [close_trade_api, ht, hp, hne, calculate_profit_loss, closePL, hz]
    · simp [calculate_profit_loss, closePL, hz]

/-- C2 witness: the amended close behaviour evaluated on a one-portfolio,
one-open-trade store with entry 100 × 10. -/
theorem c2_witness :
    (c2wTrade.status = some TradeStatus.closed →
      close_trade_api c2wDB 1 c2Close = (c2wDB, .error .invalidState)) ∧
    (c2wTrade.status = some TradeStatus.open →
      c2wTrade.entry_price * c2wTrade.quantity ≠ 0 →
      ∃ t2 pl pct,
        close_trade_api c2wDB 1 c2Close = (replaceTrade c2wDB 1 t2, .ok t2) ∧
        t2.exit_price = some c2Close.exit_price ∧
        t2.exit_date = some c2Close.exit_date ∧
        t2.status = some TradeStatus.closed ∧
        calculate_profit_loss t2 = .ok (pl, pct) ∧
        t2.profit_loss = some pl ∧
        t2.profit_loss_percentage = some pct) :=
  c2_close_lifecycle c2wDB 1 c2Close c2wTrade (by with_unfolding_all decide)
    (by with_unfolding_all decide)

/-- C4.  Closing a trade, or editing one into having exit data, while
`entry_price * quantity = 0` surfaces the explicit division error and
leaves the store exactly as it was (the session never commits), rather
than producing a NaN/Infinity value: neither handler returns an `.ok`
result carrying a sentinel. -/
theorem c4_zero_denominator (s : DB) (trade_id : ℕ) (t : Trade)
    (tc : TradeClose) (u : TradeUpdate)
    (ht : findTrade s trade_id = some t)
    (hp : (findPortfolio s t.portfolio_id).isSome = true) :
    (¬ t.status = some TradeStatus.closed → t.entry_price * t.quantity = 0 →
      close_trade_api s trade_id tc = (s, .error .zeroDivision)) ∧
    (∀ t1, applyFields t u = .ok t1 → ¬ t1.exit_price = none →
      t1.entry_price * t1.quantity = 0 →
      update_trade_api s trade_id u = (s, .error .zeroDivision)) := by
  obtain ⟨p, hp⟩ := Option.isSome_iff_exists.mp hp
  constructor
  · intro hne hz
    simp [close_trade_api, ht, hp, hne, calculate_profit_loss, hz]
  · intro t1 ha hexit hz
    obtain ⟨ep, hep⟩ := Option.ne_none_iff_exists'.mp hexit
    simp [update_trade_api, ht, hp, ha, hep, calculate_profit_loss, hz]

/-- C4 witness: the zero-denominator policy evaluated on a store holding an
OPEN trade with quantity 0, for both the close path and the edit path that
supplies an exit price. -/
theorem c4_witness :
    (¬ c4ZeroQtyTrade.status = some TradeStatus.closed →
      c4ZeroQtyTrade.entry_price * c4ZeroQtyTrade.quantity = 0 →
      close_trade_api c4DB 1 c4Close = (c4DB, .error .zeroDivision)) ∧
    (∀ t1, applyFields c4ZeroQtyTrade c4Update = .ok t1 → ¬ t1.exit_price = none →
      t1.entry_price * t1.quantity = 0 →
      update_trade_api c4DB 1 c4Update = (c4DB, .error .zeroDivision)) :=
  c4_zero_denominator c4DB 1 c4ZeroQtyTrade c4Close c4Update
    (by with_unfolding_all decide) (by with_unfolding_all decide)

theorem except_bind_ok {E A B : Type} (x : A) (f : A → Except E B) :
    (Except.ok x >>= f) = f x := rfl

theorem except_bind_err {E A B : Type} (er : E) (f : A → Except E B) :
    ((Except.error er : Except E A) >>= f) = Except.error er := rfl

/-- A successful `setattr` pass leaves the derived P&L pair untouched (the
request schema has no field for it) and writes `exit_price` exactly as
supplied. -/
theorem applyFields_fields (t : Trade) (u : TradeUpdate) (t1 : Trade)
    (h : applyFields t u = .ok t1) :
    t1.profit_loss = t.profit_loss ∧
    t1.profit_loss_percentage = t.profit_loss_percentage ∧
    t1.exit_price = setNullable t.exit_price u.exit_price := by
  unfold applyFields at h
  rcases h1 : setRequired t.symbol u.symbol with _ | sym <;> rw [h1] at h
  · simp [except_bind_err] at h
  rw [except_bind_ok] at h
  rcases h2 : setRequired t.trade_type u.trade_type with _ | ty <;> rw [h2] at h
  · simp [except_bind_err] at h
  rw [except_bind_ok] at h
  rcases h3 : setRequired t.entry_price u.entry_price with _ | en <;> rw [h3] at h
  · simp [except_bind_err] at h
  rw [except_bind_ok] at h
  rcases h4 : setRequired t.entry_date u.entry_date with _ | ed <;> rw [h4] at h
  · simp [except_bind_err] at h
  rw [except_bind_ok] at h
  rcases h5 : setRequired t.quantity u.quantity with _ | q <;> rw [h5] at h
  · simp [except_bind_err] at h
  rw [except_bind_ok] at h
  cases h
  exact ⟨rfl, rfl, rfl⟩

/-- C10.  The claim's trigger condition is right, but its consequence
("overwrites the stored derived pair with recomputed values") fails when
the edited fields zero the denominator: the PATCH `{"quantity": 0}` on the
closed trade of `c10DB` leaves the stored pair at `(200, 20)` and errors
instead of overwriting it. -/
theorem c10_counterexample :
    update_trade_api c10DB 1 c10ZeroQty = (c10DB, .error .zeroDivision) ∧
    (findTrade c10DB 1).map Trade.profit_loss = some (some 200) ∧
    c10ZeroQty.exit_price = none := by
  with_unfolding_all decide

/-- C10 (amended).  After a PATCH applies its supplied fields, the derived
pair is recomputed exactly when the resulting trade's `exit_price` is
non-null — never because the edit itself supplied one (the pass leaves the
pair untouched, so an exit-less result keeps the old pair verbatim).  When
recomputation fires and the new `entry_price * quantity` is non-zero the
stored pair is overwritten with the calculator's output on the new fields;
when it is zero the edit fails with the division error and commits
nothing. -/
theorem c10_update_recompute (s : DB) (trade_id : ℕ) (u : TradeUpdate) (t t1 : Trade)
    (ht : findTrade s trade_id = some t)
    (hp : (findPortfolio s t.portfolio_id).isSome = true)
    (ha : applyFields t u = .ok t1) :
    t1.profit_loss = t.profit_loss ∧
    t1.profit_loss_percentage = t.profit_loss_percentage ∧
    (t1.exit_price = none →
      update_trade_api s trade_id u = (replaceTrade s trade_id t1, .ok t1)) ∧
    (¬ t1.exit_price = none → t1.entry_price * t1.quantity ≠ 0 →
      ∃ pl pct,
        calculate_profit_loss t1 = .ok (pl, pct) ∧
        update_trade_api s trade_id u =
          (replaceTrade s trade_id
             { t1 with profit_loss := some pl, profit_loss_percentage := some pct },
           .ok { t1 with profit_loss := some pl,
                         profit_loss_percentage := some pct })) ∧
    (¬ t1.exit_price = none → t1.entry_price * t1.quantity = 0 →
      update_trade_api s trade_id u = (s, .error .zeroDivision)) := by
  obtain ⟨p, hp⟩ := Option.isSome_iff_exists.mp hp
  obtain ⟨hpl, hpct, -⟩ := applyFields_fields t u t1 ha
  refine ⟨hpl, hpct, ?_, ?_, ?_⟩
  · intro hnone
    simp [update_trade_api, ht, hp, ha, hnone]
  · intro hexit hz
    obtain ⟨ep, hep⟩ := Option.ne_none_iff_exists'.mp hexit
    refine ⟨closePL t1 ⟨ep, 0⟩, closePL t1 ⟨ep, 0⟩ / (t1.entry_price * t1.quantity) * 100,
      ?_, ?_⟩
    · simp [calculate_profit_loss, closePL, hep, hz]
    · simp [update_trade_api, ht, hp, ha, hep, calculate_profit_loss, closePL, hz]
  · intro hexit hz
    obtain ⟨ep, hep⟩ := Option.ne_none_iff_exists'.mp hexit
    simp [update_trade_api, ht, hp, ha, hep, calculate_profit_loss, hz]

/-- C10 witness: a notes-only PATCH on the consistent closed trade of
`c10DB` recomputes the pair from the (unchanged) stored fields. -/
theorem c10_witness :
    c10T1.profit_loss = c10ClosedTrade.profit_loss ∧
    c10T1.profit_loss_percentage = c10ClosedTrade.profit_loss_percentage ∧
    (c10T1.exit_price = none →
      update_trade_api c10DB 1 c10Notes = (replaceTrade c10DB 1 c10T1, .ok c10T1)) ∧
    (¬ c10T1.exit_price = none → c10T1.entry_price * c10T1.quantity ≠ 0 →
      ∃ pl pct,
        calculate_profit_loss c10T1 = .ok (pl, pct) ∧
        update_trade_api c10DB 1 c10Notes =
          (replaceTrade c10DB 1
             { c10T1 with profit_loss := some pl, profit_loss_percentage := some pct },
           .ok { c10T1 with profit_loss := some pl,
                            profit_loss_percentage := some pct })) ∧
    (¬ c10T1.exit_price = none → c10T1.entry_price * c10T1.quantity = 0 →
      update_trade_api c10DB 1 c10Notes = (c10DB, .error .zeroDivision)) :=
  c10_update_recompute c10DB 1 c10Notes c10ClosedTrade c10T1
    (by with_unfolding_all decide) (by with_unfolding_all decide)
    (by with_unfolding_all decide)

theorem mem_replaceTrade (s : DB) (tid : ℕ) (t2 x : Trade)
    (hx : x ∈ (replaceTrade s tid t2).trades) : x ∈ s.trades ∨ x = t2 := by
  simp only [replaceTrade, List.mem_map] at hx
  obtain ⟨y, hy, hxy⟩ := hx
  by_cases h : y.id = tid
  · right
    rw [← hxy, if_pos h]
  · left
    rw [← hxy, if_neg h]
    exact hy

theorem findTrade_mem (s : DB) (tid : ℕ) (t : Trade)
    (h : findTrade s tid = some t) : t ∈ s.trades :=
  List.mem_of_find?_eq_some h

/-- Creating a portfolio writes no trade row. -/
theorem create_portfolio_preserves_inv (s : DB) (name : String)
    (d : Option String) (b : ℚ) (uid : ℕ)
    (hinv : ∀ t ∈ s.trades, PLInvariant t) :
    ∀ t ∈ (create_portfolio s name d b uid).1.trades, PLInvariant t := hinv

/-- A created trade has no exit data and no derived pair, so it satisfies
the invariant vacuously. -/
theorem create_trade_preserves_inv (s : DB) (tc : TradeCreate)
    (hinv : ∀ t ∈ s.trades, PLInvariant t) :
    ∀ t ∈ (create_trade_api s tc).1.trades, PLInvariant t := by
  unfold create_trade_api
  split
  · exact hinv
  · intro t ht
    rcases List.mem_append.mp ht with h | h
    · exact hinv t h
    · rcases List.mem_singleton.mp h with rfl
      exact ⟨Iff.rfl, Iff.rfl⟩

/-- A successful close stores exit data together with the computed pair;
every failing path returns the untouched store. -/
theorem close_trade_preserves_inv (s : DB) (tid : ℕ) (tc : TradeClose)
    (hinv : ∀ t ∈ s.trades, PLInvariant t) :
    ∀ t ∈ (close_trade_api s tid tc).1.trades, PLInvariant t := by
  unfold close_trade_api
  split
  · exact hinv
  split
  · exact hinv
  split
  · exact hinv
  dsimp only
  split
  · exact hinv
  · intro t ht
    rcases mem_replaceTrade _ _ _ _ ht with h | rfl
    · exact hinv t h
    · exact ⟨by simp, by simp⟩

/-- An edit that does not write an explicit null exit price preserves the
invariant: when the resulting exit price is null it was already null, the
pair is untouched and null by the invariant; when it is non-null the pair
is freshly recomputed and stored. -/
theorem update_trade_preserves_inv (s : DB) (tid : ℕ) (u : TradeUpdate)
    (hsafe : u.exit_price ≠ some none)
    (hinv : ∀ t ∈ s.trades, PLInvariant t) :
    ∀ t ∈ (update_trade_api s tid u).1.trades, PLInvariant t := by
  unfold update_trade_api
  split
  · exact hinv
  next t0 hfind =>
  split
  · exact hinv
  split
  · exact hinv
  next t1 happly =>
  obtain ⟨hpl, hpct, hexit⟩ := applyFields_fields t0 u t1 happly
  split
  · next hnone =>
    intro t ht
    rcases mem_replaceTrade _ _ _ _ ht with h | rfl
    · exact hinv t h
    · have hold : t0.exit_price = none := by
        rw [hexit] at hnone
        cases hu : u.exit_price with
        | none => rwa [hu] at hnone
        | some v =>
          cases v with
          | none => exact absurd hu hsafe
          | some w => rw [hu] at hnone; cases hnone
      have h0 := hinv t0 (findTrade_mem s tid t0 hfind)
      have hplnone : t0.profit_loss = none := by
        by_contra hc
        exact (h0.1.mp hc) hold
      have hpctnone : t0.profit_loss_percentage = none := by
        by_contra hc
        exact (h0.2.mp hc) hold
      constructor
      · rw [hpl, hplnone, hnone]
      · rw [hpct, hpctnone, hnone]
  next ep hep =>
  dsimp only
  split
  · exact hinv
  · intro t ht
    rcases mem_replaceTrade _ _ _ _ ht with h | rfl
    · exact hinv t h
    · exact ⟨by simp [hep], by simp [hep]⟩

theorem delete_trade_preserves_inv (s : DB) (tid : ℕ)
    (hinv : ∀ t ∈ s.trades, PLInvariant t) :
    ∀ t ∈ (delete_trade s tid).1.trades, PLInvariant t := by
  unfold delete_trade
  split
  · exact hinv
  · intro t ht
    exact hinv t (List.mem_of_mem_filter ht)

theorem delete_portfolio_preserves_inv (s : DB) (pid : ℕ)
    (hinv : ∀ t ∈ s.trades, PLInvariant t) :
    ∀ t ∈ (delete_portfolio s pid).1.trades, PLInvariant t := by
  unfold delete_portfolio
  split
  · exact hinv
  · intro t ht
    exact hinv t (List.mem_of_mem_filter ht)

/-- C3.  The claimed invariant fails on a state reachable through the core
operations: create a portfolio and a trade, close the trade (pair becomes
`(200, 20)`), then PATCH `{"exit_price": null}`.  The stored trade then has
a null exit price but still carries the derived pair, because the update
path only recomputes when the resulting exit price is non-null and never
clears the pair. -/
theorem c3_counterexample :
    Reachable c3s4 ∧
    (findTrade c3s4 1).map Trade.exit_price = some none ∧
    (findTrade c3s4 1).map Trade.profit_loss = some (some 200) ∧
    (findTrade c3s4 1).map Trade.profit_loss_percentage = some (some 20) := by
  refine ⟨?_, ?_, ?_, ?_⟩
  · exact Reachable.updateTrade c3s3 1 c3NullExit
      (Reachable.closeTrade c3s2 1 c3Close
        (Reachable.createTrade c3s1 c3Create
          (Reachable.createPortfolio ⟨[], [], 1, 1⟩ "Main" none 0 1 Reachable.empty)))
  · with_unfolding_all decide
  · with_unfolding_all decide
  · with_unfolding_all decide

/-- C3 (amended).  The equivalence "derived pair populated iff exit data
present" holds for every trade in every state reachable through create,
close, delete and those edits that do not supply an explicit
`exit_price: null`; the excluded edit breaks it as the counterexample
shows. -/
theorem c3_plinvariant (s : DB) (hs : ReachableSafe s) :
    ∀ t ∈ s.trades, PLInvariant t := by
  induction hs with
  | empty => intro t ht; cases ht
  | createPortfolio s name d b uid _ ih =>
    exact create_portfolio_preserves_inv s name d b uid ih
  | createTrade s tc _ ih => exact create_trade_preserves_inv s tc ih
  | updateTrade s tid u hsafe _ ih => exact update_trade_preserves_inv s tid u hsafe ih
  | closeTrade s tid tc _ ih => exact close_trade_preserves_inv s tid tc ih
  | deleteTrade s tid _ ih => exact delete_trade_preserves_inv s tid ih
  | deletePortfolio s pid _ ih => exact delete_portfolio_preserves_inv s pid ih

/-- C3 witness: the invariant evaluated on the closed trade of the
concretely reached state `c3s3` (both derived fields populated, exit data
present). -/
theorem c3_witness : PLInvariant c3wTrade :=
  c3_plinvariant c3s3
    (ReachableSafe.closeTrade c3s2 1 c3Close
      (ReachableSafe.createTrade c3s1 c3Create
        (ReachableSafe.createPortfolio ⟨[], [], 1, 1⟩ "Main" none 0 1
          ReachableSafe.empty)))
    c3wTrade (by with_unfolding_all decide)

/-- Every trade is classified exactly once: the two filters of the
aggregate handler partition the closed-trade list. -/
theorem winning_add_losing_length (ts : List Trade) :
    (winning_trades ts).length + (losing_trades ts).length = ts.length := by
  induction ts with
  | nil => rfl
  | cons t ts ih =>
    simp only [winning_trades, losing_trades] at ih ⊢
    by_cases h : 0 < plOrZero t
    · rw [List.filter_cons, List.filter_cons, if_pos (by simpa using h),
        if_neg (by simpa using not_le.mpr h)]
      simp only [List.length_cons]
      omega
    · rw [List.filter_cons, List.filter_cons, if_neg (by simpa using h),
        if_pos (by simpa using not_lt.mp h)]
      simp only [List.length_cons]
      omega

theorem mem_winning_trades (ts : List Trade) (t : Trade) :
    t ∈ winning_trades ts ↔ t ∈ ts ∧ 0 < plOrZero t := by
  simp [winning_trades, List.mem_filter]

theorem mem_losing_trades (ts : List Trade) (t : Trade) :
    t ∈ losing_trades ts ↔ t ∈ ts ∧ plOrZero t ≤ 0 := by
  simp [losing_trades, List.mem_filter]

/-- A trade the handler classifies as winning always carries a non-null
`profit_loss` (a null one coerces to `0`, which is not `> 0`). -/
theorem winning_profit_loss_ne_none (ts : List Trade) (t : Trade)
    (h : t ∈ winning_trades ts) : t.profit_loss ≠ none := by
  obtain ⟨-, hpos⟩ := (mem_winning_trades ts t).mp h
  intro hn
  rw [plOrZero, hn] at hpos
  exact absurd hpos (by norm_num)

/-- C5.  On any portfolio with at least one closed trade, the aggregate
handler's classification is exactly the `> 0` / `≤ 0` split of the closed
trades with null P&L coerced to zero, the two classes partition the list,
the internally computed win rate is `wins / total * 100`, and the returned
win/loss counters always sum to the returned total. -/
theorem c5_win_loss_classification (s : DB) (portfolio_id : ℕ)
    (h1 : 1 ≤ (closedTrades s portfolio_id).length) :
    (∀ t, t ∈ winning_trades (closedTrades s portfolio_id) ↔
      t ∈ closedTrades s portfolio_id ∧ 0 < plOrZero t) ∧
    (∀ t, t ∈ losing_trades (closedTrades s portfolio_id) ↔
      t ∈ closedTrades s portfolio_id ∧ plOrZero t ≤ 0) ∧
    (winning_trades (closedTrades s portfolio_id)).length
        + (losing_trades (closedTrades s portfolio_id)).length
      = (closedTrades s portfolio_id).length ∧
    win_rate (closedTrades s portfolio_id)
      = ((winning_trades (closedTrades s portfolio_id)).length : ℚ)
          / ((closedTrades s portfolio_id).length : ℚ) * 100 ∧
    (∀ out, get_portfolio_analytics s portfolio_id = .ok out →
      out.total_wins + out.total_losses = out.total_trades) := by
  refine ⟨mem_winning_trades _, mem_losing_trades _,
    winning_add_losing_length _, ?_, ?_⟩
  · rw [win_rate, if_pos (by omega)]
  · intro out hout
    unfold get_portfolio_analytics at hout
    split at hout
    · cases hout
    split at hout
    · cases hout
      simp [zeroAnalytics]
    · next t0 rest heq =>
      dsimp only at hout
      split at hout
      · cases hout
        simpa using winning_add_losing_length (t0 :: rest)
      · cases hout

/-- C5 witness: the classification evaluated on a portfolio with one
winning and one losing closed trade. -/
theorem c5_witness :
    (∀ t, t ∈ winning_trades (closedTrades c5DB 1) ↔
      t ∈ closedTrades c5DB 1 ∧ 0 < plOrZero t) ∧
    (∀ t, t ∈ losing_trades (closedTrades c5DB 1) ↔
      t ∈ closedTrades c5DB 1 ∧ plOrZero t ≤ 0) ∧
    (winning_trades (closedTrades c5DB 1)).length
        + (losing_trades (closedTrades c5DB 1)).length
      = (closedTrades c5DB 1).length ∧
    win_rate (closedTrades c5DB 1)
      = ((winning_trades (closedTrades c5DB 1)).length : ℚ)
          / ((closedTrades c5DB 1).length : ℚ) * 100 ∧
    (∀ out, get_portfolio_analytics c5DB 1 = .ok out →
      out.total_wins + out.total_losses = out.total_trades) :=
  c5_win_loss_classification c5DB 1 (by with_unfolding_all decide)

/-- C6.  Deleting an existing portfolio reports success, removes the
portfolio row and every trade whose `portfolio_id` matches it in one
commit, keeps every other portfolio and trade, and a subsequent listing of
that portfolio's trades is a NotFound error (and the bare query is empty);
deleting a missing portfolio reports failure and changes nothing. -/
theorem c6_delete_portfolio_cascade (s : DB) (portfolio_id : ℕ) :
    (findPortfolio s portfolio_id = none →
      delete_portfolio s portfolio_id = (s, false)) ∧
    ((findPortfolio s portfolio_id).isSome = true →
      (delete_portfolio s portfolio_id).2 = true ∧
      findPortfolio (delete_portfolio s portfolio_id).1 portfolio_id = none ∧
      (∀ t ∈ (delete_portfolio s portfolio_id).1.trades,
        t.portfolio_id ≠ portfolio_id) ∧
      (∀ t ∈ s.trades, t.portfolio_id ≠ portfolio_id →
        t ∈ (delete_portfolio s portfolio_id).1.trades) ∧
      (∀ q ∈ s.portfolios, q.id ≠ portfolio_id →
        q ∈ (delete_portfolio s portfolio_id).1.portfolios) ∧
      get_portfolio_trades (delete_portfolio s portfolio_id).1 portfolio_id none
        = [] ∧
      (∀ st, get_portfolio_trades_api (delete_portfolio s portfolio_id).1
        portfolio_id st = .error .notFound)) := by
  constructor
  · intro hnone
    simp [delete_portfolio, hnone]
  · intro hp
    obtain ⟨p, hp⟩ := Option.isSome_iff_exists.mp hp
    have hdel :
        (delete_portfolio s portfolio_id).1 =
          { s with
              portfolios := s.portfolios.filter (fun q => ¬ q.id = portfolio_id),
              trades := s.trades.filter (fun t => ¬ t.portfolio_id = portfolio_id) } := by
      simp [delete_portfolio, hp]
    have hfind :
        findPortfolio (delete_portfolio s portfolio_id).1 portfolio_id = none := by
      rw [hdel]
      refine List.find?_eq_none.mpr ?_
      intro q hq
      have := (List.mem_filter.mp hq).2
      simp only [decide_eq_true_eq] at this
      simpa using this
    refine ⟨by simp [delete_portfolio, hp], hfind, ?_, ?_, ?_, ?_, ?_⟩
    · intro t ht
      rw [hdel] at ht
      have := (List.mem_filter.mp ht).2
      simpa using this
    · intro t ht hne
      rw [hdel]
      exact List.mem_filter.mpr ⟨ht, by simpa using hne⟩
    · intro q hq hne
      rw [hdel]
      exact List.mem_filter.mpr ⟨hq, by simpa using hne⟩
    · rw [get_portfolio_trades]
      have hq : tradesQuery (delete_portfolio s portfolio_id).1 portfolio_id none
          = [] := by
        rw [tradesQuery, hdel]
        simp only []
        rw [List.filter_filter]
        refine List.filter_eq_nil_iff.mpr ?_
        intro t ht
        simp
      rw [hq]
      rfl
    · intro st
      simp [get_portfolio_trades_api, hfind]

/-- C6 witness: the cascade evaluated on a two-portfolio store; the trade
of the other portfolio survives. -/
theorem c6_witness :
    (findPortfolio c6DB 1 = none → delete_portfolio c6DB 1 = (c6DB, false)) ∧
    ((findPortfolio c6DB 1).isSome = true →
      (delete_portfolio c6DB 1).2 = true ∧
      findPortfolio (delete_portfolio c6DB 1).1 1 = none ∧
      (∀ t ∈ (delete_portfolio c6DB 1).1.trades, t.portfolio_id ≠ 1) ∧
      (∀ t ∈ c6DB.trades, t.portfolio_id ≠ 1 →
        t ∈ (delete_portfolio c6DB 1).1.trades) ∧
      (∀ q ∈ c6DB.portfolios, q.id ≠ 1 →
        q ∈ (delete_portfolio c6DB 1).1.portfolios) ∧
      get_portfolio_trades (delete_portfolio c6DB 1).1 1 none = [] ∧
      (∀ st, get_portfolio_trades_api (delete_portfolio c6DB 1).1 1 st
        = .error .notFound)) :=
  c6_delete_portfolio_cascade c6DB 1

/-- When every trade of the list carries a non-null `profit_loss`, the
unguarded Python sum succeeds and equals the guarded one. -/
theorem sumPL_eq_ok (ts : List Trade) (h : ∀ t ∈ ts, t.profit_loss ≠ none) :
    sumPL ts = .ok ((ts.map plOrZero).sum) := by
  induction ts with
  | nil => rfl
  | cons t ts ih =>
    obtain ⟨v, hv⟩ := Option.ne_none_iff_exists'.mp (h t (List.mem_cons_self t ts))
    rw [sumPL, hv, ih (fun x hx => h x (List.mem_cons_of_mem t hx))]
    simp [Except.map, plOrZero, hv]

theorem roundTo2_zero : roundTo2 0 = 0 := by
  rw [roundTo2, roundHalfEven]
  norm_num

/-- C7.  The claim quantifies over every portfolio with a closed trade, but
on `c7s3` — reached by creating a trade and editing its status to CLOSED
without exit data — the aggregate handler raises a TypeError while summing
the losing trades' null `profit_loss`, so no profit factor is returned at
all. -/
theorem c7_counterexample :
    Reachable c7s3 ∧
    1 ≤ (closedTrades c7s3 1).length ∧
    get_portfolio_analytics c7s3 1 = .error .typeError := by
  refine ⟨?_, ?_, ?_⟩
  · exact Reachable.updateTrade c7s2 1 c7StatusClosed
      (Reachable.createTrade c7s1 c7Create
        (Reachable.createPortfolio ⟨[], [], 1, 1⟩ "Main" none 0 1 Reachable.empty))
  · with_unfolding_all decide
  · with_unfolding_all decide

/-- C7 (amended).  On a portfolio with at least one closed trade all of
whose closed trades carry a non-null `profit_loss`, the aggregate handler
returns `profitFactor = sum(winning P&L) / abs(sum(losing P&L))` (rounded
to two decimals at the response boundary), and exactly `0` whenever the
losing-sum magnitude is zero — including when every trade is a winner.  A
closed trade with a null `profit_loss` instead aborts the whole response
with a type error, as the counterexample shows. -/
theorem c7_profit_factor (s : DB) (portfolio_id : ℕ) (p : Portfolio)
    (hp : findPortfolio s portfolio_id = some p)
    (h1 : 1 ≤ (closedTrades s portfolio_id).length)
    (hns : ∀ t ∈ closedTrades s portfolio_id, t.profit_loss ≠ none) :
    ∃ out, get_portfolio_analytics s portfolio_id = .ok out ∧
      out.profit_factor =
        roundTo2
          (if 0 < |((losing_trades (closedTrades s portfolio_id)).map plOrZero).sum|
           then ((winning_trades (closedTrades s portfolio_id)).map plOrZero).sum
             / |((losing_trades (closedTrades s portfolio_id)).map plOrZero).sum|
           else 0) ∧
      (|((losing_trades (closedTrades s portfolio_id)).map plOrZero).sum| = 0 →
        out.profit_factor = 0) := by
  have hwin : ∀ t ∈ winning_trades (closedTrades s portfolio_id),
      t.profit_loss ≠ none :=
    fun t ht => winning_profit_loss_ne_none _ t ht
  have hlose : ∀ t ∈ losing_trades (closedTrades s portfolio_id),
      t.profit_loss ≠ none :=
    fun t ht => hns t ((mem_losing_trades _ t).mp ht).1
  cases hc : closedTrades s portfolio_id with
  | nil => rw [hc] at h1; cases h1
  | cons t0 rest =>
    rw [hc] at hwin hlose
    unfold get_portfolio_analytics
    rw [hp, hc]
    dsimp only
    rw [sumPL_eq_ok _ hwin, sumPL_eq_ok _ hlose]
    rw [show ∀ x : ℚ, Except.map abs (Except.ok x : Except Err ℚ)
      = Except.ok |x| from fun x => rfl]
    by_cases hw : 0 < (winning_trades (t0 :: rest)).length
    · rw [if_pos hw]
      by_cases hl : 0 < (losing_trades (t0 :: rest)).length
      · rw [if_pos hl]
        dsimp only [Except.map]
        refine ⟨_, rfl, ?_, ?_⟩
        · simp [hc]
        · intro hz
          simp [hz, roundTo2_zero]
      · rw [if_neg hl]
        dsimp only [Except.map]
        refine ⟨_, rfl, ?_, ?_⟩
        · simp [hc]
        · intro hz
          simp [hz, roundTo2_zero]
    · rw [if_neg hw]
      by_cases hl : 0 < (losing_trades (t0 :: rest)).length
      · rw [if_pos hl]
        dsimp only [Except.map]
        refine ⟨_, rfl, ?_, ?_⟩
        · simp [hc]
        · intro hz
          simp [hz, roundTo2_zero]
      · rw [if_neg hl]
        dsimp only [Except.map]
        refine ⟨_, rfl, ?_, ?_⟩
        · simp [hc]
        · intro hz
          simp [hz, roundTo2_zero]

/-- C7 witness: the profit factor evaluated on a portfolio holding a
winning trade (+100) and a losing one (-50). -/
theorem c7_witness :
    ∃ out, get_portfolio_analytics c7wDB 1 = .ok out ∧
      out.profit_factor =
        roundTo2
          (if 0 < |((losing_trades (closedTrades c7wDB 1)).map plOrZero).sum|
           then ((winning_trades (closedTrades c7wDB 1)).map plOrZero).sum
             / |((losing_trades (closedTrades c7wDB 1)).map plOrZero).sum|
           else 0) ∧
      (|((losing_trades (closedTrades c7wDB 1)).map plOrZero).sum| = 0 →
        out.profit_factor = 0) :=
  c7_profit_factor c7wDB 1 c7wPortfolio (by with_unfolding_all decide)
    (by with_unfolding_all decide) (by with_unfolding_all decide)

theorem map_bumpIf_id (gs : List SymbolStats) (t : Trade)
    (h : ∀ g ∈ gs, g.symbol ≠ t.symbol) :
    gs.map (fun g => if g.symbol = t.symbol then bumpStats g t else g) = gs := by
  induction gs with
  | nil => rfl
  | cons g gs ih =>
    rw [List.map_cons, if_neg (h g (List.mem_cons_self g gs)),
      ih (fun x hx => h x (List.mem_cons_of_mem g hx))]

/-- Bumping the (unique, by the no-duplicate-symbols invariant) matching
group adds exactly one to the total-trade count. -/
theorem sum_map_bumpIf (gs : List SymbolStats) (t : Trade)
    (hnd : (gs.map SymbolStats.symbol).Nodup)
    (hany : gs.any (fun g => g.symbol == t.symbol) = true) :
    ((gs.map (fun g => if g.symbol = t.symbol then bumpStats g t else g)).map
        SymbolStats.total_trades).sum
      = (gs.map SymbolStats.total_trades).sum + 1 := by
  induction gs with
  | nil => cases hany
  | cons g gs ih =>
    rw [List.map_cons] at hnd
    obtain ⟨hnotin, hnd2⟩ := List.nodup_cons.mp hnd
    by_cases hg : g.symbol = t.symbol
    · rw [List.map_cons, if_pos hg]
      have htail : gs.map (fun g => if g.symbol = t.symbol then bumpStats g t else g)
          = gs := by
        apply map_bumpIf_id
        intro x hx hxeq
        apply hnotin
        rw [hg, ← hxeq]
        exact List.mem_map_of_mem _ hx
      rw [htail]
      simp only [List.map_cons, List.sum_cons, bumpStats]
      omega
    · rw [List.map_cons, if_neg hg]
      have hany2 : gs.any (fun g => g.symbol == t.symbol) = true := by
        rcases List.any_eq_true.mp hany with ⟨x, hx, hxeq⟩
        rcases List.mem_cons.mp hx with rfl | hx2
        · exact absurd (by simpa using hxeq) hg
        · exact List.any_eq_true.mpr ⟨x, hx2, hxeq⟩
      simp only [List.map_cons, List.sum_cons, ih hnd2 hany2]
      omega

/-- One grouping-loop iteration adds exactly one to the summed totals. -/
theorem stepSymbol_sum (gs : List SymbolStats) (t : Trade)
    (hnd : (gs.map SymbolStats.symbol).Nodup) :
    ((stepSymbol gs t).map SymbolStats.total_trades).sum
      = (gs.map SymbolStats.total_trades).sum + 1 := by
  unfold stepSymbol
  by_cases hany : gs.any (fun g => g.symbol == t.symbol) = true
  · rw [if_pos hany]
    exact sum_map_bumpIf gs t hnd hany
  · rw [if_neg hany]
    have hno : ∀ g ∈ gs, g.symbol ≠ t.symbol := by
      intro g hg he
      exact hany (List.any_eq_true.mpr ⟨g, hg, by simpa using he⟩)
    rw [List.map_append, map_bumpIf_id gs t hno]
    simp [bumpStats]

theorem stepSymbol_nodup (gs : List SymbolStats) (t : Trade)
    (hnd : (gs.map SymbolStats.symbol).Nodup) :
    ((stepSymbol gs t).map SymbolStats.symbol).Nodup := by
  have hsym : ∀ gs1 : List SymbolStats,
      ((gs1.map (fun g => if g.symbol = t.symbol then bumpStats g t else g)).map
        SymbolStats.symbol) = gs1.map SymbolStats.symbol := by
    intro gs1
    rw [List.map_map]
    apply List.map_congr_left
    intro g _
    by_cases h : g.symbol = t.symbol
    · simp [h, bumpStats]
    · simp [h]
  unfold stepSymbol
  by_cases hany : gs.any (fun g => g.symbol == t.symbol) = true
  · rw [if_pos hany]
    rw [hsym]
    exact hnd
  · rw [if_neg hany]
    rw [hsym, List.map_append]
    have hnot : t.symbol ∉ gs.map SymbolStats.symbol := by
      intro hmem
      rcases List.mem_map.mp hmem with ⟨g, hg, hge⟩
      exact hany (List.any_eq_true.mpr ⟨g, hg, by simpa using hge⟩)
    simp only [List.map_cons, List.map_nil]
    rw [List.nodup_append]
    exact ⟨hnd, List.nodup_singleton _, by simpa using hnot⟩

theorem stepSymbol_pos (gs : List SymbolStats) (t : Trade)
    (hpos : ∀ g ∈ gs, 1 ≤ g.total_trades) :
    ∀ g ∈ stepSymbol gs t, 1 ≤ g.total_trades := by
  intro g hg
  unfold stepSymbol at hg
  have hbump : ∀ g1 : SymbolStats, 1 ≤ g1.total_trades ∨ g1.symbol = t.symbol →
      1 ≤ (if g1.symbol = t.symbol then bumpStats g1 t else g1).total_trades := by
    intro g1 h1
    by_cases h : g1.symbol = t.symbol
    · rw [if_pos h]
      simp only [bumpStats]
      omega
    · rw [if_neg h]
      rcases h1 with h1 | h1
      · exact h1
      · exact absurd h1 h
  by_cases hany : gs.any (fun g => g.symbol == t.symbol) = true
  · rw [if_pos hany] at hg
    obtain ⟨g1, hg1, rfl⟩ := List.mem_map.mp hg
    exact hbump g1 (Or.inl (hpos g1 hg1))
  · rw [if_neg hany] at hg
    obtain ⟨g1, hg1, rfl⟩ := List.mem_map.mp hg
    rcases List.mem_append.mp hg1 with h1 | h1
    · exact hbump g1 (Or.inl (hpos g1 h1))
    · rcases List.mem_singleton.mp h1 with rfl
      exact hbump _ (Or.inr rfl)

/-- The grouping fold keeps symbols unique, keeps every group's count at
one or more, and grows the summed counts by exactly the number of trades
folded in. -/
theorem foldl_stepSymbol_props (ts : List Trade) :
    ∀ gs : List SymbolStats, (gs.map SymbolStats.symbol).Nodup →
      (∀ g ∈ gs, 1 ≤ g.total_trades) →
      ((ts.foldl stepSymbol gs).map SymbolStats.symbol).Nodup ∧
      (∀ g ∈ ts.foldl stepSymbol gs, 1 ≤ g.total_trades) ∧
      ((ts.foldl stepSymbol gs).map SymbolStats.total_trades).sum
        = (gs.map SymbolStats.total_trades).sum + ts.length := by
  induction ts with
  | nil =>
    intro gs h1 h2
    exact ⟨h1, h2, by simp⟩
  | cons t ts ih =>
    intro gs h1 h2
    rw [List.foldl_cons]
    obtain ⟨a, b, c⟩ := ih (stepSymbol gs t) (stepSymbol_nodup gs t h1)
      (stepSymbol_pos gs t h2)
    refine ⟨a, b, ?_⟩
    rw [c, stepSymbol_sum gs t h1, List.length_cons]
    omega

/-- C8.  The per-symbol handler returns only groups backed by at least one
closed trade, and the group counts sum to the number of closed trades —
which is the `total_trades` the aggregate handler reports for the same
store whenever it returns at all. -/
theorem c8_symbol_totals (s : DB) (portfolio_id : ℕ)
    (hp : (findPortfolio s portfolio_id).isSome = true) :
    ∃ gs, get_analytics_by_symbol s portfolio_id = .ok gs ∧
      (∀ g ∈ gs, 1 ≤ g.total_trades) ∧
      (gs.map SymbolStats.total_trades).sum = (closedTrades s portfolio_id).length ∧
      (∀ out, get_portfolio_analytics s portfolio_id = .ok out →
        (gs.map SymbolStats.total_trades).sum = out.total_trades) := by
  obtain ⟨p, hp2⟩ := Option.isSome_iff_exists.mp hp
  obtain ⟨hnd, hpos, hsum⟩ := foldl_stepSymbol_props (closedTrades s portfolio_id)
    [] (by simp) (by simp)
  have hfin : ((symbolGroups (closedTrades s portfolio_id)).map finalizeGroup).map
      SymbolStats.total_trades
      = (symbolGroups (closedTrades s portfolio_id)).map SymbolStats.total_trades := by
    rw [List.map_map]
    apply List.map_congr_left
    intro g _
    rfl
  refine ⟨(symbolGroups (closedTrades s portfolio_id)).map finalizeGroup,
    by simp [get_analytics_by_symbol, hp2], ?_, ?_, ?_⟩
  · intro g hg
    obtain ⟨g1, hg1, rfl⟩ := List.mem_map.mp hg
    exact hpos g1 hg1
  · rw [hfin]
    simpa using hsum
  · intro out hout
    rw [hfin]
    have hsum2 : (List.map SymbolStats.total_trades
        (symbolGroups (closedTrades s portfolio_id))).sum
        = (closedTrades s portfolio_id).length := by simpa using hsum
    rw [hsum2]
    unfold get_portfolio_analytics at hout
    rw [hp2] at hout
    cases hc : closedTrades s portfolio_id with
    | nil =>
      rw [hc] at hout
      cases hout
      simp [zeroAnalytics, hc]
    | cons t0 rest =>
      rw [hc] at hout
      dsimp only at hout
      split at hout
      · cases hout
        simp [hc]
      · cases hout

/-- C8 witness: the per-symbol totals evaluated on a portfolio with two
closed TCS trades and one closed INFY trade. -/
theorem c8_witness :
    ∃ gs, get_analytics_by_symbol c8DB 1 = .ok gs ∧
      (∀ g ∈ gs, 1 ≤ g.total_trades) ∧
      (gs.map SymbolStats.total_trades).sum = (closedTrades c8DB 1).length ∧
      (∀ out, get_portfolio_analytics c8DB 1 = .ok out →
        (gs.map SymbolStats.total_trades).sum = out.total_trades) :=
  c8_symbol_totals c8DB 1 (by with_unfolding_all decide)

theorem insertByEntryDateDesc_perm (t : Trade) (l : List Trade) :
    (insertByEntryDateDesc t l).Perm (t :: l) := by
  induction l with
  | nil => exact List.Perm.refl _
  | cons x xs ih =>
    rw [insertByEntryDateDesc]
    by_cases h : x.entry_date ≤ t.entry_date
    · rw [if_pos h]
    · rw [if_neg h]
      exact (ih.cons x).trans (List.Perm.swap t x xs)

theorem sortByEntryDateDesc_perm (l : List Trade) :
    (sortByEntryDateDesc l).Perm l := by
  induction l with
  | nil => exact List.Perm.refl _
  | cons t ts ih =>
    rw [sortByEntryDateDesc]
    exact (insertByEntryDateDesc_perm t (sortByEntryDateDesc ts)).trans (ih.cons t)

theorem insertByEntryDateDesc_sorted (t : Trade) (l : List Trade)
    (h : l.Pairwise (fun a b => b.entry_date ≤ a.entry_date)) :
    (insertByEntryDateDesc t l).Pairwise (fun a b => b.entry_date ≤ a.entry_date) := by
  induction l with
  | nil => simp [insertByEntryDateDesc]
  | cons x xs ih =>
    obtain ⟨hx, hxs⟩ := List.pairwise_cons.mp h
    rw [insertByEntryDateDesc]
    by_cases hle : x.entry_date ≤ t.entry_date
    · rw [if_pos hle]
      refine List.Pairwise.cons ?_ h
      intro y hy
      rcases List.mem_cons.mp hy with rfl | hy2
      · exact hle
      · exact le_trans (hx y hy2) hle
    · rw [if_neg hle]
      refine List.Pairwise.cons ?_ (ih hxs)
      intro y hy
      rcases List.mem_cons.mp ((insertByEntryDateDesc_perm t xs).mem_iff.mp hy)
        with rfl | hy2
      · exact le_of_lt (not_le.mp hle)
      · exact hx y hy2

theorem sortByEntryDateDesc_sorted (l : List Trade) :
    (sortByEntryDateDesc l).Pairwise (fun a b => b.entry_date ≤ a.entry_date) := by
  induction l with
  | nil => simp [sortByEntryDateDesc]
  | cons t ts ih =>
    rw [sortByEntryDateDesc]
    exact insertByEntryDateDesc_sorted t _ ih

/-- Inserting a row with the date under scrutiny keeps it ahead of every
equal-dated row already present: the skipped prefix consists of strictly
later dates only. -/
theorem insertByEntryDateDesc_filter_eq (t : Trade) (l : List Trade) (d : ℤ)
    (h : t.entry_date = d) :
    (insertByEntryDateDesc t l).filter (fun x => decide (x.entry_date = d))
      = t :: l.filter (fun x => decide (x.entry_date = d)) := by
  induction l with
  | nil =>
    rw [insertByEntryDateDesc]
    simp [h]
  | cons x xs ih =>
    rw [insertByEntryDateDesc]
    by_cases hle : x.entry_date ≤ t.entry_date
    · rw [if_pos hle, List.filter_cons, if_pos (by simpa using h)]
    · have hxd : ¬ x.entry_date = d := by
        intro he
        exact hle (by rw [he, h])
      rw [if_neg hle, List.filter_cons, if_neg (by simpa using hxd), ih,
        List.filter_cons, if_neg (by simpa using hxd)]

theorem insertByEntryDateDesc_filter_ne (t : Trade) (l : List Trade) (d : ℤ)
    (h : ¬ t.entry_date = d) :
    (insertByEntryDateDesc t l).filter (fun x => decide (x.entry_date = d))
      = l.filter (fun x => decide (x.entry_date = d)) := by
  induction l with
  | nil =>
    rw [insertByEntryDateDesc]
    simp [h]
  | cons x xs ih =>
    rw [insertByEntryDateDesc]
    by_cases hle : x.entry_date ≤ t.entry_date
    · rw [if_pos hle, List.filter_cons, if_neg (by simpa using h)]
    · rw [if_neg hle, List.filter_cons, List.filter_cons, ih]

/-- Stability of the embedded ordering: restricting the sorted list to any
single entry date gives back those rows in their original row order. -/
theorem sortByEntryDateDesc_filter (l : List Trade) (d : ℤ) :
    (sortByEntryDateDesc l).filter (fun x => decide (x.entry_date = d))
      = l.filter (fun x => decide (x.entry_date = d)) := by
  induction l with
  | nil => rfl
  | cons t ts ih =>
    rw [sortByEntryDateDesc]
    by_cases h : t.entry_date = d
    · rw [insertByEntryDateDesc_filter_eq t _ d h, ih, List.filter_cons,
        if_pos (by simpa using h)]
    · rw [insertByEntryDateDesc_filter_ne t _ d h, ih, List.filter_cons,
        if_neg (by simpa using h)]

theorem mem_tradesQuery (s : DB) (portfolio_id : ℕ) (status : Option TradeStatus)
    (t : Trade) :
    t ∈ tradesQuery s portfolio_id status ↔
      t ∈ s.trades ∧ t.portfolio_id = portfolio_id ∧
        ∀ v ∈ status, t.status = some v := by
  unfold tradesQuery
  cases status with
  | none => simp [List.mem_filter]
  | some v =>
    simp only [List.mem_filter, decide_eq_true_eq, Option.mem_def,
      Option.some.injEq, forall_eq']
    tauto

/-- C9.  The listing returns exactly the portfolio's rows (restricted to
the requested status when one is supplied), as a permutation of the
underlying query, ordered by entry date descending, and stably: within any
one entry date the original row (insertion) order is preserved.  The tie
order itself is spec-modelled (see `sortByEntryDateDesc`). -/
theorem c9_list_trades (s : DB) (portfolio_id : ℕ) (status : Option TradeStatus) :
    (get_portfolio_trades s portfolio_id status).Perm
      (tradesQuery s portfolio_id status) ∧
    (∀ t, t ∈ get_portfolio_trades s portfolio_id status ↔
      t ∈ s.trades ∧ t.portfolio_id = portfolio_id ∧
        ∀ v ∈ status, t.status = some v) ∧
    (get_portfolio_trades s portfolio_id status).Pairwise
      (fun a b => b.entry_date ≤ a.entry_date) ∧
    (∀ d : ℤ, (get_portfolio_trades s portfolio_id status).filter
        (fun x => decide (x.entry_date = d))
      = (tradesQuery s portfolio_id status).filter
        (fun x => decide (x.entry_date = d))) := by
  refine ⟨sortByEntryDateDesc_perm _, ?_, sortByEntryDateDesc_sorted _, ?_⟩
  · intro t
    rw [← mem_tradesQuery s portfolio_id status t]
    exact (sortByEntryDateDesc_perm _).mem_iff
  · intro d
    exact sortByEntryDateDesc_filter _ d

/-- Concrete check of the ordering: rows 2 and 3 tie on entry date 9 and
come back in row order, ahead of the older row 1; the status filter keeps
only the closed row 3. -/
example : get_portfolio_trades c9DB 1 none = [c9T2, c9T3, c9T1] := by
  with_unfolding_all decide

example : get_portfolio_trades c9DB 1 (some TradeStatus.closed) = [c9T3] := by
  with_unfolding_all decide

end TradingJournal
